import Mathlib

/-!
Verification of the backup orchestration engine of davexpro/backup.

The development shallowly embeds the Go sources:

* `internal/mysql/worker.go` (and its sibling variant, the file holding the
  `Backup`/`filterDatabases` duplicate): database filtering, the per-database
  run loop, the per-target pipeline `backupDatabase`, and the final
  retention / report / exit sequence;
* `internal/gitlab/worker.go`: the single-target GitLab run and pipeline;
* `internal/pkg/helper/hash.go`: `CalculateSHA256` and `SendReport`;
* the storage helper's `EnforceRetention`;
* `internal/utils/lock.go`: `AcquireLock`.

External collaborators (the `mysqlsh` dump process, the `zip` tool, the
object-storage client, the filesystem, the flock library) are modelled as
explicit environment records: each field holds the outcome the collaborator
would report (an `Option String` error, or the bytes of a produced file).
Machine integers are `Nat`/`Int`; Go `error` values are `Option String`
(`none` = `nil`); a Go function that can panic returns `Option`.
-/

namespace BackupProof

/-- Result record of one backup target, translated from `BackupResult` in
`internal/pkg/helper/hash.go` (fields `Database`, `Success`, `Size`,
`SHA256`, `Error`).  `Size` is `int64` holding a byte count produced by
`io.Copy`, hence never negative: modelled as `Nat`.  The `Duration` field is
written only after the result is returned and no claim mentions it, so it is
left out of the embedding. -/
structure BackupResult where
  database : String
  success : Bool
  size : Nat
  sha256 : String
  error : Option String
deriving Repr, DecidableEq

/-- Failure result as built by the early returns of `backupDatabase` /
`backup`: only `Database`, `Success` and `Error` are set, the other fields
keep their Go zero values. -/
def failedResult (database msg : String) : BackupResult :=
  { database := database, success := false, size := 0, sha256 := "", error := some msg }

/-- MySQL facet of the configuration as `internal/mysql/worker.go` reads it:
the `Include` and `Exclude` database-name lists.  (The config variant in the
repository's `config` package shows only `Exclude`; the worker also reads
`Include`, so both lists are part of the model.) -/
structure MySQLConfig where
  include' : List String
  exclude : List String
deriving Repr, DecidableEq

/-- Configuration slice the run loop touches: the MySQL filter policy and
`Retention.Hours` (a Go `int`). -/
structure Config where
  mysql : MySQLConfig
  retentionHours : Int
deriving Repr, DecidableEq

/-- Go `strings.Contains(s, pat)` over the character list of `s` (standard
library; both uses in the sources apply it to ASCII text, where bytes and
characters coincide). -/
def hasSubstr (pat : List Char) : List Char → Bool
  | [] => pat.isEmpty
  | c :: rest => List.isPrefixOf pat (c :: rest) || hasSubstr pat rest

/-- Variant A of `filterDatabases`, translated from
`internal/mysql/worker.go` lines 122-143.  The Go `for _, db := range
filtered` loop iterates over the snapshot of `filtered` taken at loop entry
while appending to the same slice variable, so the appended matches land
AFTER the complete pre-filtered list. -/
def filterDatabasesA (cfg : MySQLConfig) (databases : List String) : List String :=
  let filtered := databases.filter (fun dbName => !hasSubstr "WARNING:".data dbName.data)
  if cfg.include'.length > 0 then
    filtered ++ filtered.filter (fun db => cfg.include'.contains db)
  else
    filtered

/-- Variant B of `filterDatabases`, translated from the sibling worker file
(`Backup` variant) lines 206-228: with a non-empty include list the filtered
list is REPLACED by the matching names. -/
def filterDatabasesB (cfg : MySQLConfig) (databases : List String) : List String :=
  let filtered := databases.filter (fun dbName => !hasSubstr "WARNING:".data dbName.data)
  if cfg.include'.length > 0 then
    filtered.filter (fun db => cfg.include'.contains db)
  else
    filtered

/-- Hard-coded system catalogs of `shouldExcludeDB`. -/
def systemDBs : List String := ["information_schema", "performance_schema", "mysql", "sys"]

/-- Translated from `shouldExcludeDB` in `internal/mysql/worker.go` lines
145-159: a name is excluded when it is a system catalog or listed in the
configured `Exclude`. -/
def shouldExcludeDB (cfg : MySQLConfig) (dbName : String) : Bool :=
  systemDBs.contains dbName || cfg.exclude.contains dbName

/-- Per-database loop of `Run` (`internal/mysql/worker.go` lines 50-69),
translated as structural recursion over the database list.  `backup` stands
for the call `w.backupDatabase(ctx, dbName)`.  Returns the accumulated
results together with the `successCount` and `failCount` counters, updated
exactly as the loop body updates them. -/
def runFold (cfg : MySQLConfig) (backup : String → BackupResult) :
    List String → List BackupResult × Nat × Nat
  | [] => ([], 0, 0)
  | dbName :: rest =>
    if shouldExcludeDB cfg dbName then
      runFold cfg backup rest
    else
      let r := backup dbName
      let tail := runFold cfg backup rest
      (r :: tail.1,
       (if r.success then tail.2.1 + 1 else tail.2.1),
       (if r.success then tail.2.2 else tail.2.2 + 1))

/-- Declarative success count: how many collected results have `Success`. -/
def countSuccess (results : List BackupResult) : Nat :=
  (results.filter (fun r => r.success)).length

/-- Declarative failure count: how many collected results lack `Success`. -/
def countFail (results : List BackupResult) : Nat :=
  (results.filter (fun r => !r.success)).length

/-- Observable calls a run makes after its loop: the retention enforcement
and the report hand-off, with the arguments the Go code passes. -/
inductive Event where
  | enforceRetention (hours : Int)
  | sendReport (results : List BackupResult) (success fail : Nat)
deriving Repr, DecidableEq

/-- What a run produces: its ordered external calls and its returned Go
error (`none` = `nil`). -/
structure RunOutput where
  events : List Event
  ret : Option String
deriving Repr, DecidableEq

/-- Tail of `Run` (`internal/mysql/worker.go` lines 36-82) after a
successful `listDatabases`: filter, loop, enforce retention, send report,
then return an error exactly when `failCount > 0`. -/
def mysqlRun (cfg : Config) (backup : String → BackupResult) (databases : List String) : RunOutput :=
  let dbs := filterDatabasesA cfg.mysql databases
  let out := runFold cfg.mysql backup dbs
  { events := [Event.enforceRetention cfg.retentionHours,
               Event.sendReport out.1 out.2.1 out.2.2],
    ret := if out.2.2 > 0 then
             some ("backup completed with " ++ toString out.2.2 ++ " failures")
           else
             none }

/-- Results a MySQL run collects, for stating run-level properties. -/
def mysqlResults (cfg : Config) (backup : String → BackupResult) (databases : List String) :
    List BackupResult :=
  (runFold cfg.mysql backup (filterDatabasesA cfg.mysql databases)).1

/-- Hex digit character, lower case, as Go's `%x` verb prints one. -/
def hexDigit (n : Nat) : Char :=
  if n < 10 then Char.ofNat (48 + n) else Char.ofNat (87 + n)

/-- Byte-mixing digest standing for `crypto/sha256` (a Go standard-library
collaborator, external to this repository).  The only structure
`CalculateSHA256` relies on is that `Sum` yields exactly 32 bytes, which this
fold preserves; the compression function itself is irrelevant to every
claim. -/
def sha256Bytes (content : List Nat) : List Nat :=
  (List.range 32).map (fun i => content.foldl (fun a b => (a * 31 + b + i) % 256) (i % 256))

/-- Hex rendering of the digest, translated from
`fmt.Sprintf("%x", hash.Sum(nil))` in `CalculateSHA256`
(`internal/pkg/helper/hash.go` lines 11-25): two lower-case hex digits per
byte. -/
def sha256Hex (content : List Nat) : String :=
  String.mk ((sha256Bytes content).foldr
    (fun b acc => hexDigit (b / 16 % 16) :: hexDigit (b % 16) :: acc) [])

/-- Collaborator outcomes driving one `backupDatabase` pipeline run
(`internal/mysql/worker.go` lines 161-221).  `dump` is the error of
`w.dump` (mysqlsh), `zipEnc` of `helper.ZipEncryptFolder` (the `zip`
process); `artifact` is what opening and reading the produced zip file
yields: an I/O error or the file's bytes (`CalculateSHA256` hashes and
counts exactly these bytes); `mkdirLocal`/`copyFile` drive the local-save
branch and `openZip`/`upload` the upload branch. -/
structure MySQLEnv where
  dump : Option String
  zipEnc : Option String
  artifact : Except String (List Nat)
  mkdirLocal : Option String
  copyFile : Option String
  openZip : Option String
  upload : Option String

/-- Translated from `backupDatabase` (`internal/mysql/worker.go` lines
161-221): dump, archive/encrypt, hash, then publish locally (`onlyDump`) or
upload; every stage failure returns a `Success:false` result with the
stage's wrapped error, and the single final return carries
`Success:true` with the digest and byte count. -/
def mysqlBackupDatabase (onlyDump : Bool) (env : MySQLEnv) (dbName : String) : BackupResult :=
  match env.dump with
  | some e => { database := dbName, success := false, size := 0, sha256 := "", error := some e }
  | none =>
  match env.zipEnc with
  | some e => failedResult dbName ("zip encryption failed: " ++ e)
  | none =>
  match env.artifact with
  | Except.error e => failedResult dbName ("hash calc failed: " ++ e)
  | Except.ok content =>
    let hash := sha256Hex content
    let size := content.length
    let ok : BackupResult :=
      { database := dbName, success := true, size := size, sha256 := hash, error := none }
    if onlyDump then
      match env.mkdirLocal with
      | some e => failedResult dbName ("failed to create local backup dir: " ++ e)
      | none =>
      match env.copyFile with
      | some e => failedResult dbName ("failed to save local backup: " ++ e)
      | none => ok
    else
      match env.openZip with
      | some e => failedResult dbName ("open file failed: " ++ e)
      | none =>
      match env.upload with
      | some e => failedResult dbName ("upload failed: " ++ e)
      | none => ok

/-- Collaborator outcomes driving one GitLab `backup` run
(`internal/gitlab/worker.go` lines 49-146): temp-dir creation, the
`gitlab-rake` trigger, the in-container artifact lookup (its combined
output, or the command's error), the `docker cp` of the artifact, the
archive step, reading the produced zip (`artifact`), and the final publish
step.  The best-effort copies of `gitlab.rb` / `gitlab-secrets.json` only
log warnings and touch no result field, so they need no environment
entry. -/
structure GitlabEnv where
  mkdirTemp : Option String
  rake : Option String
  findBackup : Except String String
  cpBackup : Option String
  zipEnc : Option String
  artifact : Except String (List Nat)
  copyFile : Option String
  openZip : Option String
  upload : Option String

/-- Guarantee of Go's `path/filepath.Clean` (standard library) that the
emptiness check after it depends on: `Clean("")` is `"."`, and a non-empty
already-clean path stays non-empty.  Path rewriting inside `Clean` never
matters to any claim, so it is the identity here. -/
def pathClean (s : String) : String :=
  if s = "" then "." else s

/-- Translated from `backup` (`internal/gitlab/worker.go` lines 49-146).
Mirrors every early `Success:false` return; the final result sets
`Success` to whether the publish step's `uploadErr` is `nil` and carries
that error alongside the digest and size already computed. -/
def gitlabBackup (onlyDump : Bool) (env : GitlabEnv) : BackupResult :=
  match env.mkdirTemp with
  | some e => failedResult "gitlab" ("failed to create temp dir: " ++ e)
  | none =>
  match env.rake with
  | some e => failedResult "gitlab" ("gitlab-rake failed: " ++ e)
  | none =>
  match env.findBackup with
  | Except.error e => failedResult "gitlab" ("failed to find backup file in container: " ++ e)
  | Except.ok out =>
    let remoteBackupPath := pathClean out.trim
    if remoteBackupPath = "" then
      failedResult "gitlab" "no backup file found in container"
    else
      match env.cpBackup with
      | some e => failedResult "gitlab" ("failed to copy backup file: " ++ e)
      | none =>
      match env.zipEnc with
      | some e => failedResult "gitlab" ("zip encryption failed: " ++ e)
      | none =>
      match env.artifact with
      | Except.error e => failedResult "gitlab" ("hash calc failed: " ++ e)
      | Except.ok content =>
        let hash := sha256Hex content
        let size := content.length
        if onlyDump then
          let uploadErr := env.copyFile
          { database := "gitlab", success := uploadErr.isNone, size := size,
            sha256 := hash, error := uploadErr }
        else
          match env.openZip with
          | some e => failedResult "gitlab" ("open file failed: " ++ e)
          | none =>
            let uploadErr := env.upload
            { database := "gitlab", success := uploadErr.isNone, size := size,
              sha256 := hash, error := uploadErr }

/-- Go's `%v` rendering of an `error` as `Run` formats it. -/
def errText : Option String → String
  | none => "<nil>"
  | some e => e

/-- Translated from the GitLab `Run` (`internal/gitlab/worker.go` lines
35-47): one pipeline run, then `SendReport` is called with the literal
counts `1` and `0`, and the run fails exactly when the result lacks
`Success`. -/
def gitlabRun (onlyDump : Bool) (env : GitlabEnv) : RunOutput :=
  let r := gitlabBackup onlyDump env
  { events := [Event.sendReport [r] 1 0],
    ret := if !r.success then
             some ("GitLab backup failed: " ++ errText r.error)
           else
             none }

/-- One object of the storage listing under the configured path, as the
minio client streams it to `EnforceRetention`: its key, its last-modified
time (seconds on an integer timeline, as `time.Time` comparisons only need
an order), whether the listing entry itself carried an error
(`object.Err != nil`), and whether `RemoveObject` on it would fail. -/
structure StorObject where
  key : String
  lastModified : Int
  listErr : Bool
  deleteErr : Bool
deriving Repr, DecidableEq

/-- Deletion loop of `EnforceRetention`: an entry with a listing error is
skipped; an entry last modified strictly before the deadline is removed
(a failing removal is logged and skipped); anything else is kept. -/
def retentionDeleted (deadline : Int) : List StorObject → List String
  | [] => []
  | o :: rest =>
    if o.listErr then
      retentionDeleted deadline rest
    else if o.lastModified < deadline then
      if o.deleteErr then retentionDeleted deadline rest
      else o.key :: retentionDeleted deadline rest
    else
      retentionDeleted deadline rest

/-- Translated from the storage helper's `EnforceRetention`:
`retentionHours <= 0` returns immediately with a `nil` error; otherwise the
deadline is `now` minus `retentionHours` hours (3600 s each) and the listing
is swept as in `retentionDeleted`.  Yields the keys actually deleted, in
listing order, together with the returned error — which is `nil` on every
path of the source. -/
def enforceRetention (retentionHours : Int) (now : Int) (objects : List StorObject) :
    List String × Option String :=
  if retentionHours ≤ 0 then
    ([], none)
  else
    (retentionDeleted (now - retentionHours * 3600) objects, none)

/-- Cross-process state the lock touches: whether the lock file's parent
directory exists and whether another instance holds the advisory lock. -/
structure LockState where
  parentDirExists : Bool
  held : Bool
deriving Repr, DecidableEq

/-- Filesystem outcomes during `AcquireLock`: the error of `os.MkdirAll`
on the parent directory, and a syscall error of the flock attempt. -/
structure LockEnv where
  mkdir : Option String
  tryLockErr : Option String
deriving Repr, DecidableEq

/-- Translated from `AcquireLock` (`internal/utils/lock.go` lines 13-33).
`os.MkdirAll` first creates the parent directory (its failure aborts);
`flock.TryLock` (gofrs/flock, an external library) is the non-blocking
try-acquire: a syscall error aborts, an already-held lock yields
`locked=false` and the "already locked" error, otherwise the lock is taken
and the closure releasing it is returned — modelled by the `.ok` state in
which `held` is set.  No path waits or retries: the translation is a total,
straight-line function. -/
def acquireLock (env : LockEnv) (lockPath : String) (st : LockState) : Except String LockState :=
  match env.mkdir with
  | some e => Except.error ("failed to create lock directory: " ++ e)
  | none =>
    let st1 : LockState := { st with parentDirExists := true }
    match env.tryLockErr with
    | some e => Except.error ("failed to attempt lock: " ++ e)
    | none =>
      if st1.held then
        Except.error ("lock file " ++ lockPath ++ " is already locked, another instance might be running")
      else
        Except.ok { st1 with held := true }

/-- Release closure returned by `AcquireLock`: `fileLock.Unlock()`. -/
def releaseLock (st : LockState) : LockState :=
  { st with held := false }

/-- Go `strings.Split(s, "\n")` over character lists (standard library):
splits at every newline, keeping empty fields. -/
def splitNewline (cur : List Char) : List Char → List (List Char)
  | [] => [cur.reverse]
  | c :: rest =>
    if c = '\n' then cur.reverse :: splitNewline [] rest
    else splitNewline (c :: cur) rest

/-- ASCII whitespace recognised by Go `strings.TrimSpace` (the catalog
output the parser sees is ASCII). -/
def isSpaceChar (c : Char) : Bool :=
  c = ' ' || c = '\t' || c = '\n' || c = '\x0b' || c = '\x0c' || c = '\r'

/-- Go `strings.TrimSpace` over character lists: drop leading and trailing
whitespace. -/
def trimSpace (s : List Char) : List Char :=
  ((s.dropWhile isSpaceChar).reverse.dropWhile isSpaceChar).reverse

/-- Skip condition of the `listDatabases` parser loop
(`internal/mysql/worker.go` lines 104-116), on the already-trimmed line:
empty lines, `WARNING:` lines, the two header spellings, and the `+` / `|`
table-border decorations are dropped; its negation keeps the line. -/
def keepLine (line : List Char) : Bool :=
  !(line.isEmpty
    || List.isPrefixOf "WARNING:".data line
    || List.isPrefixOf "SCHEMA_NAME".data line
    || List.isPrefixOf "schema_name".data line
    || List.isPrefixOf "+".data line
    || List.isPrefixOf "|".data line)

/-- Parser loop of `listDatabases`: trim each line, append it unless the
skip condition fires. -/
def parseLines : List (List Char) → List (List Char)
  | [] => []
  | l :: rest =>
    let t := trimSpace l
    if keepLine t then t :: parseLines rest else parseLines rest

/-- Database-name parser of `listDatabases` applied to the captured
`mysqlsh` output: split on newlines, trim, drop non-data lines. -/
def listDatabasesParse (output : String) : List String :=
  (parseLines (splitNewline [] output.data)).map String.mk

/-- Character allowed in an unquoted MySQL identifier (the spec's
"plain-identifier shape"): ASCII alphanumerics, underscore and dollar. -/
def isPlainIdentChar (c : Char) : Bool :=
  c.isAlphanum || c = '_' || c = '$'

/-- A plain identifier: non-empty and made of plain-identifier characters
only. -/
def isPlainIdent (s : String) : Bool :=
  !s.isEmpty && s.data.all isPlainIdentChar

/-- One rendered line of the report text `SendReport` builds: the data the
line interpolates (the success line shows the human-scaled size — a pure
rendering of `Size` — and the first eight hex characters of the hash; the
failure line shows the error). -/
inductive ReportLine where
  | ok (database : String) (size : Nat) (hash8 : String)
  | fail (database : String) (err : String)
deriving Repr, DecidableEq

/-- Report contents assembled by `SendReport`
(`internal/pkg/helper/hash.go` lines 45-62): the `Total`/`Success`/`Fail`
header counts and one line per result.  Building the line of a successful
result evaluates `res.SHA256[:8]`, which panics in Go when the hash holds
fewer than 8 bytes — the panic is the `none` outcome. -/
structure Report where
  total : Nat
  successCount : Nat
  failCount : Nat
  lines : List ReportLine
deriving Repr, DecidableEq

/-- Per-result loop of `SendReport`: a success line takes the first eight
characters of the hash and is only defined when the hash has at least
eight (otherwise Go panics with a string index out of range); a failure
line formats the error. -/
def reportLines : List BackupResult → Option (List ReportLine)
  | [] => some []
  | r :: rest =>
    if r.success then
      if 8 ≤ r.sha256.length then
        match reportLines rest with
        | some ls => some (ReportLine.ok r.database r.size (String.mk (r.sha256.data.take 8)) :: ls)
        | none => none
      else
        none
    else
      match reportLines rest with
      | some ls => some (ReportLine.fail r.database (errText r.error) :: ls)
      | none => none

/-- Translated from `SendReport`: header with the passed counts, then the
per-result lines; `none` when building some line panics. -/
def sendReport (results : List BackupResult) (success fail : Nat) : Option Report :=
  match reportLines results with
  | some ls => some { total := results.length, successCount := success, failCount := fail, lines := ls }
  | none => none

/-! ## General lemmas about the embedded operations -/

/-- The run loop collects exactly the pipeline result of every non-excluded
database, in list order. -/
theorem runFold_results (cfg : MySQLConfig) (backup : String → BackupResult) :
    ∀ dbs : List String,
      (runFold cfg backup dbs).1 = (dbs.filter (fun d => !shouldExcludeDB cfg d)).map backup
  | [] => rfl
  | d :: rest => by
    by_cases h : shouldExcludeDB cfg d
    · simp [runFold, h, runFold_results cfg backup rest]
    · simp [runFold, h, runFold_results cfg backup rest]

/-- The loop's incrementally maintained counters agree with the declarative
counts over the collected results. -/
theorem runFold_counts (cfg : MySQLConfig) (backup : String → BackupResult) :
    ∀ dbs : List String,
      (runFold cfg backup dbs).2.1 = countSuccess (runFold cfg backup dbs).1 ∧
      (runFold cfg backup dbs).2.2 = countFail (runFold cfg backup dbs).1
  | [] => by simp [runFold, countSuccess, countFail]
  | d :: rest => by
    have ih := runFold_counts cfg backup rest
    by_cases h : shouldExcludeDB cfg d
    · simpa [runFold, h] using ih
    · by_cases hs : (backup d).success
      · simp [runFold, h, hs, countSuccess, countFail, ih.1, ih.2]
      · simp [runFold, h, hs, countSuccess, countFail, ih.1, ih.2]

/-- With a non-empty include list, the replacing `filterDatabases` variant
keeps only names of the include list. -/
theorem filterDatabasesB_subset (cfg : MySQLConfig) (hinc : 0 < cfg.include'.length)
    (dbs : List String) : ∀ d ∈ filterDatabasesB cfg dbs, d ∈ cfg.include' := by
  intro d hd
  simp only [filterDatabasesB, if_pos hinc, List.mem_filter] at hd
  exact List.mem_of_elem_eq_true hd.2

/-- The replacing `filterDatabases` variant never duplicates a name of a
duplicate-free input. -/
theorem filterDatabasesB_nodup (cfg : MySQLConfig) (dbs : List String) (h : dbs.Nodup) :
    (filterDatabasesB cfg dbs).Nodup := by
  unfold filterDatabasesB
  split
  · exact List.Nodup.filter _ (List.Nodup.filter _ h)
  · exact List.Nodup.filter _ h

/-! ## C1: the include filter (filterDatabases plus the exclusion check) -/

/-- Configuration of C1's failing input: `Include = ["a"]`, no excludes. -/
def c1Cfg : MySQLConfig := { include' := ["a"], exclude := [] }

/-- C1 (code bug, evaluation at the failing input): with `Include = ["a"]`,
no excludes, and listed databases `["a", "b"]`, the `filterDatabases` of
`internal/mysql/worker.go` appends the matching names to the list it already
holds in full, and the per-name exclusion check removes nothing, so the run
processes `["a", "b", "a"]`: `"b"` is processed though absent from the
include list, and `"a"` is processed twice — against the claimed
subset-of-include / at-most-once property (the sibling worker variant's
replacing filter satisfies it, see `filterDatabasesB_subset`). -/
theorem c1_filter_append_eval :
    filterDatabasesA c1Cfg ["a", "b"] = ["a", "b", "a"] ∧
    (filterDatabasesA c1Cfg ["a", "b"]).filter (fun d => !shouldExcludeDB c1Cfg d) =
      ["a", "b", "a"] ∧
    "b" ∈ filterDatabasesA c1Cfg ["a", "b"] ∧ "b" ∉ c1Cfg.include' ∧
    (filterDatabasesA c1Cfg ["a", "b"]).count "a" = 2 := by decide

/-! ## C4: one result per processed database, failures do not abort -/

/-- C4: over any enumerated database list, the run loop of
`internal/mysql/worker.go` `Run` produces exactly the pipeline result of
each non-excluded database, in enumeration order — the characterization
holds for EVERY outcome function `backup`, so one database's failure never
prevents a later database from being processed and contributing its
result (second conjunct). -/
theorem c4_one_result_per_database (cfg : MySQLConfig) (backup : String → BackupResult)
    (dbs : List String) :
    (runFold cfg backup dbs).1 = (dbs.filter (fun d => !shouldExcludeDB cfg d)).map backup ∧
    ∀ d ∈ dbs, shouldExcludeDB cfg d = false → backup d ∈ (runFold cfg backup dbs).1 := by
  refine ⟨runFold_results cfg backup dbs, ?_⟩
  intro d hd hex
  rw [runFold_results cfg backup dbs]
  exact List.mem_map_of_mem backup (List.mem_filter.mpr ⟨hd, by simp [hex]⟩)

/-! ## C2: the report's aggregate counts -/

/-- GitLab environment whose rake trigger fails, driving C2's
counterexample: the run's single target fails. -/
def gitlabRakeFailEnv : GitlabEnv :=
  { mkdirTemp := none, rake := some "exit status 1", findBackup := Except.ok "",
    cpBackup := none, zipEnc := none, artifact := Except.ok [1],
    copyFile := none, openZip := none, upload := none }

/-- C2 counterexample: a GitLab run whose single target failed.  Its one
collected result has `Success:false` (zero successes, one failure), yet
`Run` (`internal/gitlab/worker.go` line 41) hands `SendReport` the literal
counts success=1, fail=0 — not one failure and zero successes as
claimed. -/
theorem c2_gitlab_report_counts_cex :
    (gitlabRun false gitlabRakeFailEnv).events =
      [Event.sendReport [gitlabBackup false gitlabRakeFailEnv] 1 0] ∧
    countSuccess [gitlabBackup false gitlabRakeFailEnv] = 0 ∧
    countFail [gitlabBackup false gitlabRakeFailEnv] = 1 := by decide

/-- C2 (amended): the MySQL run's emitted report carries success and fail
counts equal to the number of collected results with `Success` and without
it, respectively; the GitLab run instead always hands `SendReport` the
constant counts success=1, fail=0, whatever its single result's outcome. -/
theorem c2_report_counts_amended (cfg : Config) (backup : String → BackupResult)
    (dbs : List String) (onlyDump : Bool) (genv : GitlabEnv) :
    (mysqlRun cfg backup dbs).events =
      [Event.enforceRetention cfg.retentionHours,
       Event.sendReport (mysqlResults cfg backup dbs)
         (countSuccess (mysqlResults cfg backup dbs))
         (countFail (mysqlResults cfg backup dbs))] ∧
    (gitlabRun onlyDump genv).events =
      [Event.sendReport [gitlabBackup onlyDump genv] 1 0] := by
  refine ⟨?_, rfl⟩
  have h := runFold_counts cfg.mysql backup (filterDatabasesA cfg.mysql dbs)
  simp [mysqlRun, mysqlResults, h.1, h.2]

/-! ## C5: the run's exit contract -/

/-- C5: a MySQL run that reaches the end of target processing returns
success exactly when no target failed; a positive fail count yields the
failure message naming that count; and on both paths the emitted call
sequence ends with retention enforcement followed by the report
(`internal/mysql/worker.go` lines 71-82). -/
theorem c5_exit_contract (cfg : Config) (backup : String → BackupResult) (dbs : List String) :
    ((mysqlRun cfg backup dbs).ret = none ↔ countFail (mysqlResults cfg backup dbs) = 0) ∧
    (mysqlRun cfg backup dbs).ret =
      (if countFail (mysqlResults cfg backup dbs) = 0 then none
       else some ("backup completed with " ++
         toString (countFail (mysqlResults cfg backup dbs)) ++ " failures")) ∧
    (mysqlRun cfg backup dbs).events =
      [Event.enforceRetention cfg.retentionHours,
       Event.sendReport (mysqlResults cfg backup dbs)
         (countSuccess (mysqlResults cfg backup dbs))
         (countFail (mysqlResults cfg backup dbs))] := by
  have h := runFold_counts cfg.mysql backup (filterDatabasesA cfg.mysql dbs)
  rcases Nat.eq_zero_or_pos (countFail (mysqlResults cfg backup dbs)) with hf | hf
  · refine ⟨?_, ?_, ?_⟩ <;>
      simp_all [mysqlRun, mysqlResults]
  · have hne : countFail (mysqlResults cfg backup dbs) ≠ 0 := Nat.pos_iff_ne_zero.mp hf
    refine ⟨?_, ?_, ?_⟩ <;>
      simp_all [mysqlRun, mysqlResults]

/-! ## C3: the success flag's invariant -/

/-- The modelled digest always holds exactly 32 bytes, as `sha256.Sum`
does. -/
theorem sha256Bytes_length (c : List Nat) : (sha256Bytes c).length = 32 := by
  simp [sha256Bytes]

/-- Two hex characters are emitted per digest byte. -/
theorem foldr_hex_length (l : List Nat) :
    (l.foldr (fun b acc => hexDigit (b / 16 % 16) :: hexDigit (b % 16) :: acc) []).length =
      2 * l.length := by
  induction l with
  | nil => rfl
  | cons a t ih => simp [ih, Nat.mul_succ]

/-- The hex rendering of a digest is a 64-character string. -/
theorem sha256Hex_data_length (c : List Nat) : (sha256Hex c).data.length = 64 := by
  have h : (sha256Hex c).data =
      (sha256Bytes c).foldr (fun b acc => hexDigit (b / 16 % 16) :: hexDigit (b % 16) :: acc) [] :=
    rfl
  rw [h, foldr_hex_length, sha256Bytes_length]

/-- A computed hash string is never empty. -/
theorem sha256Hex_ne_empty (c : List Nat) : sha256Hex c ≠ "" := by
  intro h
  have h64 := sha256Hex_data_length c
  rw [h] at h64
  simp at h64

/-- A cleaned path is never the empty string, so the emptiness check after
`filepath.Clean` in the GitLab pipeline can never fire. -/
theorem pathClean_ne_empty (s : String) : pathClean s ≠ "" := by
  unfold pathClean
  split
  · decide
  · assumption

/-- Invariant claimed of every produced result: the success flag holds
exactly when the error is `nil`, the hash is non-empty and the size is
positive. -/
def resultSuccessInv (r : BackupResult) : Prop :=
  r.success = true ↔ (r.error = none ∧ r.sha256 ≠ "" ∧ 0 < r.size)

/-- A failure result satisfies the invariant: no success flag, and the
error field is set. -/
theorem resultSuccessInv_failed (d m : String) : resultSuccessInv (failedResult d m) := by
  simp [resultSuccessInv, failedResult]

/-- The shared success return satisfies the invariant whenever the hashed
artifact held at least one byte. -/
theorem resultSuccessInv_ok (d : String) (c : List Nat) (hc : c ≠ []) :
    resultSuccessInv
      { database := d, success := true, size := c.length, sha256 := sha256Hex c, error := none } := by
  simp [resultSuccessInv, sha256Hex_ne_empty, List.length_pos, hc]

/-- The GitLab final return, whose success flag and error field both come
from the publish step's error, satisfies the invariant whenever the hashed
artifact held at least one byte. -/
theorem resultSuccessInv_publish (d : String) (c : List Nat) (hc : c ≠ []) (u : Option String) :
    resultSuccessInv
      { database := d, success := u.isNone, size := c.length, sha256 := sha256Hex c, error := u } := by
  cases u <;> simp [resultSuccessInv, sha256Hex_ne_empty, List.length_pos, hc]

/-- Every result of the MySQL pipeline satisfies the success-flag
invariant, given the archive collaborator's guarantee that a successfully
produced zip file is non-empty. -/
theorem mysqlBackupDatabase_inv (onlyDump : Bool) (env : MySQLEnv) (dbName : String)
    (hart : ∀ c, env.artifact = Except.ok c → c ≠ []) :
    resultSuccessInv (mysqlBackupDatabase onlyDump env dbName) := by
  rcases env with ⟨ed, ez, ea, em, ec, eo, eu⟩
  rcases ed with _ | e₁
  case some => exact resultSuccessInv_failed _ _
  rcases ez with _ | e₂
  case some => exact resultSuccessInv_failed _ _
  rcases ea with e₃ | content
  case error => exact resultSuccessInv_failed _ _
  have hc : content ≠ [] := hart content rfl
  cases onlyDump
  case true =>
    rcases em with _ | e₄
    case some => exact resultSuccessInv_failed _ _
    rcases ec with _ | e₅
    case some => exact resultSuccessInv_failed _ _
    exact resultSuccessInv_ok _ _ hc
  case false =>
    rcases eo with _ | e₆
    case some => exact resultSuccessInv_failed _ _
    rcases eu with _ | e₇
    case some => exact resultSuccessInv_failed _ _
    exact resultSuccessInv_ok _ _ hc

/-- Every result of the GitLab pipeline satisfies the success-flag
invariant, given the archive collaborator's guarantee that a successfully
produced zip file is non-empty. -/
theorem gitlabBackup_inv (onlyDump : Bool) (genv : GitlabEnv)
    (hgart : ∀ c, genv.artifact = Except.ok c → c ≠ []) :
    resultSuccessInv (gitlabBackup onlyDump genv) := by
  rcases genv with ⟨g₁, g₂, g₃, g₄, g₅, g₆, g₇, g₈, g₉⟩
  rcases g₁ with _ | e₁
  case some => exact resultSuccessInv_failed _ _
  rcases g₂ with _ | e₂
  case some => exact resultSuccessInv_failed _ _
  rcases g₃ with e₃ | out
  case error => exact resultSuccessInv_failed _ _
  rcases g₄ with _ | e₄
  case some =>
    simpa [gitlabBackup, pathClean_ne_empty] using resultSuccessInv_failed "gitlab" _
  rcases g₅ with _ | e₅
  case some =>
    simpa [gitlabBackup, pathClean_ne_empty] using resultSuccessInv_failed "gitlab" _
  rcases g₆ with e₆ | content
  case error =>
    simpa [gitlabBackup, pathClean_ne_empty] using resultSuccessInv_failed "gitlab" _
  have hc : content ≠ [] := hgart content rfl
  cases onlyDump
  case true =>
    simpa [gitlabBackup, pathClean_ne_empty] using resultSuccessInv_publish "gitlab" content hc g₇
  case false =>
    rcases g₈ with _ | e₈
    case some =>
      simpa [gitlabBackup, pathClean_ne_empty] using resultSuccessInv_failed "gitlab" _
    simpa [gitlabBackup, pathClean_ne_empty] using resultSuccessInv_publish "gitlab" content hc g₉

/-- C3: every result a MySQL `backupDatabase` or GitLab `backup` pipeline
run produces satisfies `success = true ⟺ error = nil ∧ hash ≠ "" ∧
size > 0`.  The two hypotheses state the archive collaborator's guarantee
that a zip file it reports success on is never empty (a zip archive carries
at least its end-of-central-directory record); the pipelines themselves
never check the size. -/
theorem c3_result_success_iff (onlyDump gOnlyDump : Bool) (env : MySQLEnv)
    (genv : GitlabEnv) (dbName : String)
    (hart : ∀ c, env.artifact = Except.ok c → c ≠ [])
    (hgart : ∀ c, genv.artifact = Except.ok c → c ≠ []) :
    resultSuccessInv (mysqlBackupDatabase onlyDump env dbName) ∧
    resultSuccessInv (gitlabBackup gOnlyDump genv) :=
  ⟨mysqlBackupDatabase_inv onlyDump env dbName hart,
   gitlabBackup_inv gOnlyDump genv hgart⟩

/-- Environment in which every MySQL collaborator call succeeds and the
produced zip holds one byte. -/
def mysqlOkEnv : MySQLEnv :=
  { dump := none, zipEnc := none, artifact := Except.ok [7],
    mkdirLocal := none, copyFile := none, openZip := none, upload := none }

/-- Environment in which every GitLab collaborator call succeeds and the
produced zip holds one byte. -/
def gitlabOkEnv : GitlabEnv :=
  { mkdirTemp := none, rake := none,
    findBackup := Except.ok "/var/opt/gitlab/backups/1_gitlab_backup.tar",
    cpBackup := none, zipEnc := none, artifact := Except.ok [7],
    copyFile := none, openZip := none, upload := none }

/-- Witness for C3: the invariant holds at the all-successful concrete
environments. -/
theorem c3_result_success_iff_witness :
    resultSuccessInv (mysqlBackupDatabase false mysqlOkEnv "app_db") ∧
    resultSuccessInv (gitlabBackup false gitlabOkEnv) :=
  c3_result_success_iff false false mysqlOkEnv gitlabOkEnv "app_db"
    (fun c h => by simp [mysqlOkEnv] at h; simp [← h])
    (fun c h => by simp [gitlabOkEnv] at h; simp [← h])

/-! ## C6: retention enforcement -/

/-- Over a listing whose entries carry no listing error and whose deletions
all succeed, the sweep deletes exactly the keys last modified strictly
before the deadline, in listing order. -/
theorem retentionDeleted_clean (deadline : Int) :
    ∀ objs : List StorObject, (∀ o ∈ objs, o.listErr = false ∧ o.deleteErr = false) →
      retentionDeleted deadline objs =
        (objs.filter (fun o => decide (o.lastModified < deadline))).map (fun o => o.key)
  | [], _ => rfl
  | o :: rest, h => by
    have ho := h o (List.mem_cons_self o rest)
    have ih := retentionDeleted_clean deadline rest (fun x hx => h x (List.mem_cons_of_mem o hx))
    by_cases hlt : o.lastModified < deadline
    · simp [retentionDeleted, ho.1, ho.2, hlt, ih]
    · simp [retentionDeleted, ho.1, ho.2, hlt, ih]

/-- C6: retention enforcement with a non-positive configured value is a
no-op returning `nil`; with a positive value it deletes exactly the listed
artifacts (the listing is already scoped to the configured prefix) whose
last-modified time lies strictly before now minus the retention duration —
one at or after the cutoff is kept.  The hypothesis restricts the statement
to clean listings, matching the claim, which does not speak about per-item
listing or deletion failures (the source logs and skips those). -/
theorem c6_retention_cutoff (retentionHours now : Int) (objects : List StorObject)
    (hclean : ∀ o ∈ objects, o.listErr = false ∧ o.deleteErr = false) :
    (retentionHours ≤ 0 → enforceRetention retentionHours now objects = ([], none)) ∧
    (0 < retentionHours →
      enforceRetention retentionHours now objects =
        ((objects.filter (fun o => decide (o.lastModified < now - retentionHours * 3600))).map
          (fun o => o.key), none)) := by
  constructor
  · intro h
    simp [enforceRetention, h]
  · intro h
    have hn : ¬retentionHours ≤ 0 := not_le.mpr h
    simp [enforceRetention, hn, retentionDeleted_clean _ objects hclean]

/-- Listing of C6's witness: a two-hour-old artifact and a thirty-minute-old
artifact, at `now = 0` on the seconds timeline. -/
def retentionObjs : List StorObject :=
  [{ key := "old", lastModified := -7200, listErr := false, deleteErr := false },
   { key := "new", lastModified := -1800, listErr := false, deleteErr := false }]

/-- Witness for C6: with one retention hour only the two-hour-old artifact
falls before the cutoff (so exactly `"old"` is deleted), and a configured
zero deletes nothing. -/
theorem c6_retention_cutoff_witness :
    (∀ o ∈ retentionObjs, o.listErr = false ∧ o.deleteErr = false) ∧
    enforceRetention 1 0 retentionObjs =
      ((retentionObjs.filter (fun o => decide (o.lastModified < 0 - 1 * 3600))).map
        (fun o => o.key), none) ∧
    enforceRetention 0 0 retentionObjs = ([], none) ∧
    enforceRetention 1 0 retentionObjs = (["old"], none) :=
  ⟨by decide,
   (c6_retention_cutoff 1 0 retentionObjs (by decide)).2 (by decide),
   (c6_retention_cutoff 0 0 retentionObjs (by decide)).1 (by decide),
   by decide⟩

/-! ## C7: the catalog-listing parser -/

/-- The parser loop equals trimming every split line and keeping exactly
those passing the skip test. -/
theorem parseLines_eq_filter :
    ∀ ls : List (List Char), parseLines ls = (ls.map trimSpace).filter keepLine
  | [] => rfl
  | l :: rest => by
    by_cases h : keepLine (trimSpace l)
    · simp [parseLines, h, parseLines_eq_filter rest]
    · simp [parseLines, h, parseLines_eq_filter rest]

/-- C7 counterexample: on the catalog output line `"foo bar"` the parser
returns the name `"foo bar"`, which is not of plain-identifier shape (it
contains a space) — so the parser does not drop every line that fails the
plain-identifier shape, and not every returned name is a plain
identifier. -/
theorem c7_parser_nonident_cex :
    listDatabasesParse ("foo bar" ++ "\n") = ["foo bar"] ∧
    isPlainIdent "foo bar" = false := by decide

/-- C7 (amended): the parser drops exactly the lines that, after trimming,
are empty or start with `WARNING:`, `SCHEMA_NAME`, `schema_name`, `+` or
`|` — which covers the warning, header, table-border and empty lines — and
returns every other line verbatim after trimming, whether or not it is a
plain identifier (every returned name passes that keep test, no more). -/
theorem c7_parser_dropped_lines_amended (output : String) :
    listDatabasesParse output =
      (((splitNewline [] output.data).map trimSpace).filter keepLine).map String.mk ∧
    ∀ s ∈ listDatabasesParse output, keepLine s.data = true := by
  constructor
  · simp [listDatabasesParse, parseLines_eq_filter]
  · intro s hs
    rw [listDatabasesParse, parseLines_eq_filter] at hs
    rcases List.mem_map.mp hs with ⟨t, ht, rfl⟩
    exact (List.mem_filter.mp ht).2

/-! ## C8: system catalogs are never processed -/

/-- Every branch of the pipeline stamps the processed database's name into
its result. -/
theorem mysqlBackupDatabase_database (onlyDump : Bool) (env : MySQLEnv) (dbName : String) :
    (mysqlBackupDatabase onlyDump env dbName).database = dbName := by
  rcases env with ⟨ed, ez, ea, em, ec, eo, eu⟩
  rcases ed with _ | e₁ <;> rcases ez with _ | e₂ <;> rcases ea with e₃ | c <;>
    rcases em with _ | e₄ <;> rcases ec with _ | e₅ <;> rcases eo with _ | e₆ <;>
    rcases eu with _ | e₇ <;> cases onlyDump <;> rfl

/-- C8: whatever the user's include and exclude lists (and the collaborator
outcomes), no system catalog name — `information_schema`,
`performance_schema`, `mysql`, `sys` — is ever processed: none appears
among the databases of the results the run collects, because
`shouldExcludeDB` rejects them before `backupDatabase` runs. -/
theorem c8_system_dbs_never_processed (cfg : Config) (onlyDump : Bool)
    (env : String → MySQLEnv) (dbs : List String) (s : String) (hs : s ∈ systemDBs) :
    s ∉ (mysqlResults cfg (fun d => mysqlBackupDatabase onlyDump (env d) d) dbs).map
        (fun r => r.database) := by
  intro hmem
  rw [mysqlResults, runFold_results, List.map_map] at hmem
  rcases List.mem_map.mp hmem with ⟨d, hd, hdd⟩
  have hds : d = s := by simpa [mysqlBackupDatabase_database] using hdd
  subst hds
  have hex := (List.mem_filter.mp hd).2
  have hsys : shouldExcludeDB cfg.mysql d = true := by
    simp only [shouldExcludeDB, Bool.or_eq_true]
    exact Or.inl (by simpa using hs)
  simp [hsys] at hex

/-- Policy of C8's witness: the user even INCLUDES the system catalog
`mysql` explicitly. -/
def sysCfg : Config := { mysql := { include' := ["mysql"], exclude := [] }, retentionHours := 0 }

/-- Pipeline environment whose dump step fails (its outcome is irrelevant
to C8's witness). -/
def dumpFailEnv : MySQLEnv :=
  { dump := some "exit status 1", zipEnc := none, artifact := Except.ok [7],
    mkdirLocal := none, copyFile := none, openZip := none, upload := none }

/-- Witness for C8: even with `mysql` on the include list and listed by the
catalog, it is absent from the processed results. -/
theorem c8_system_dbs_never_processed_witness :
    "mysql" ∈ systemDBs ∧
    "mysql" ∉ (mysqlResults sysCfg
        (fun d => mysqlBackupDatabase false ((fun _ => dumpFailEnv) d) d)
        ["mysql", "app_db"]).map (fun r => r.database) :=
  ⟨by decide,
   c8_system_dbs_never_processed sysCfg false (fun _ => dumpFailEnv)
     ["mysql", "app_db"] "mysql" (by decide)⟩

/-! ## C9: non-blocking lock acquisition -/

/-- C9: acquiring the lock while another instance holds it fails with an
error on every environment (with working filesystem and flock calls it is
precisely the "already locked" error) rather than waiting — the translation
of `AcquireLock` is a straight-line total function with no retry — and any
successful acquisition has created the lock file's parent directory and
holds the lock, the state in which the returned release closure
(`releaseLock`) operates. -/
theorem c9_lock_nonblocking (env : LockEnv) (lockPath : String) (st : LockState) :
    (st.held = true → ∃ msg, acquireLock env lockPath st = Except.error msg) ∧
    (env.mkdir = none → env.tryLockErr = none → st.held = true →
      acquireLock env lockPath st =
        Except.error ("lock file " ++ lockPath ++
          " is already locked, another instance might be running")) ∧
    (∀ st', acquireLock env lockPath st = Except.ok st' →
      st'.parentDirExists = true ∧ st'.held = true) := by
  rcases env with ⟨m, t⟩
  rcases st with ⟨pd, held⟩
  rcases m with _ | e₁ <;> rcases t with _ | e₂ <;> cases held <;>
    simp [acquireLock]

/-! ## C10: report generation is partial in the hash length -/

/-- The per-result report loop succeeds whenever every successful result
carries a hash of at least eight characters. -/
theorem reportLines_total :
    ∀ results : List BackupResult,
      (∀ r ∈ results, r.success = true → 8 ≤ r.sha256.length) →
      (reportLines results).isSome = true
  | [], _ => rfl
  | r :: rest, h => by
    have ih := reportLines_total rest (fun x hx => h x (List.mem_cons_of_mem r hx))
    rcases ho : reportLines rest with _ | ls
    · rw [ho] at ih
      simp at ih
    · by_cases hs : r.success
      · have h8 : 8 ≤ r.sha256.length := h r (List.mem_cons_self r rest) hs
        simp [reportLines, hs, h8, ho]
      · simp [reportLines, hs, ho]

/-- Successful result whose hash is shorter than eight characters, driving
the panic of C10. -/
def shortHashResult : BackupResult :=
  { database := "app_db", success := true, size := 5, sha256 := "abc", error := none }

/-- C10: `SendReport` is total exactly under the precondition the claim
states — every `Success` result's hash holds at least 8 characters — and on
a list with a successful result whose hash is shorter (here `"abc"`),
taking `SHA256[:8]` panics, so no report is produced (`none`). -/
theorem c10_sendReport_partiality :
    (∀ (results : List BackupResult) (success fail : Nat),
      (∀ r ∈ results, r.success = true → 8 ≤ r.sha256.length) →
      (sendReport results success fail).isSome = true) ∧
    sendReport [shortHashResult] 1 0 = none := by
  constructor
  · intro results success fail h
    have ht := reportLines_total results h
    rcases ho : reportLines results with _ | ls
    · rw [ho] at ht
      simp at ht
    · simp [sendReport, ho]
  · decide

end BackupProof
